import Mathlib

/-!
Verification of the order / preorder placement and lifecycle workflows of the
bambosey e-commerce backend.  The definitions below are a shallow embedding of
the route handlers in src/routes/orders.js (order placement, cancellation,
admin status update) and src/routes/admin.js (preorder placement, preorder
status update), over an explicit store record standing for the relational
database.  Money amounts (DECIMAL(10,2) columns and JS numbers) are modelled
as rationals, inventory quantities as integers, ids and timestamps as
naturals.  Each handler becomes a pure function from a request and a store to
a result together with the successor store; a handler that answers an error
status leaves the store unchanged, matching the fact that the JS code returns
before the database transaction or rolls it back.
-/

namespace Bambosey

/-- Order status values of the OrderStatus Postgres enum. -/
inductive OrderStatus where
  | PENDING
  | CONFIRMED
  | PROCESSING
  | SHIPPED
  | DELIVERED
  | CANCELLED
deriving DecidableEq, Repr

/-- Order type values of the OrderType Postgres enum. -/
inductive OrderType where
  | REGULAR
  | PREORDER
deriving DecidableEq, Repr

/-- Preorder status values of the PreorderStatus Postgres enum. -/
inductive PreorderStatus where
  | PENDING
  | CONFIRMED
  | READY
  | SHIPPED
  | DELIVERED
  | CANCELLED
  | EXPIRED
deriving DecidableEq, Repr

/-- The express-validator gate body, isIn with the six order statuses
(src/routes/orders.js line 405), modelled as a partial parse of the
request string. -/
def parseOrderStatus : String → Option OrderStatus
  | "PENDING" => some .PENDING
  | "CONFIRMED" => some .CONFIRMED
  | "PROCESSING" => some .PROCESSING
  | "SHIPPED" => some .SHIPPED
  | "DELIVERED" => some .DELIVERED
  | "CANCELLED" => some .CANCELLED
  | _ => none

/-- The express-validator gate for the seven preorder statuses
(src/routes/admin.js line 1014). -/
def parsePreorderStatus : String → Option PreorderStatus
  | "PENDING" => some .PENDING
  | "CONFIRMED" => some .CONFIRMED
  | "READY" => some .READY
  | "SHIPPED" => some .SHIPPED
  | "DELIVERED" => some .DELIVERED
  | "CANCELLED" => some .CANCELLED
  | "EXPIRED" => some .EXPIRED
  | _ => none

/-- One inventory row (table inventory, unique per product variant):
quantity, reserved_quantity, low_stock_threshold. -/
structure InventoryRec where
  quantity : Int
  reservedQuantity : Int
  lowStockThreshold : Int
deriving DecidableEq, Repr

/-- One cart line item (table cart_items) as loaded by the order placement
handler: captured price, quantity, optional variant reference, preorder
flag. -/
structure CartItem where
  productId : Nat
  productVariantId : Option Nat
  quantity : Nat
  price : Rat
  isPreorder : Bool
deriving DecidableEq, Repr

/-- One order line item (table order_items): immutable snapshot taken from a
cart item at order creation. -/
structure OrderItem where
  productId : Nat
  productVariantId : Option Nat
  quantity : Nat
  price : Rat
  total : Rat
  isPreorder : Bool
deriving DecidableEq, Repr

/-- One order row (table orders), restricted to the fields the claims are
about. -/
structure StoredOrder where
  id : Nat
  userId : Nat
  totalAmount : Rat
  orderType : OrderType
  status : OrderStatus
  items : List OrderItem
deriving DecidableEq, Repr

/-- One product row (table products), restricted to the preorder-relevant
fields.  variantIds lists the ids of the product's active variants, standing
for the filtered variants relation loaded by the preorder handler. -/
structure ProductRec where
  id : Nat
  basePrice : Rat
  isActive : Bool
  allowPreorder : Bool
  preorderPrice : Option Rat
  preorderLimit : Option Nat
  expectedStockDate : Option Nat
  totalPreorders : Int
  variantIds : List Nat
deriving DecidableEq, Repr

/-- One preorder row (table preorders), restricted to the fields the claims
are about. -/
structure PreorderRec where
  id : Nat
  userId : Nat
  productId : Nat
  productVariantId : Option Nat
  quantity : Nat
  price : Rat
  depositPaid : Rat
  remainingAmount : Rat
  status : PreorderStatus
  shippingAddressId : Option Nat
  expectedDate : Option Nat
deriving DecidableEq, Repr

/-- One preorder status history row (prisma model preorderStatusHistory,
created in src/routes/admin.js lines 1098-1107). -/
structure HistRec where
  preorderId : Nat
  fromStatus : PreorderStatus
  toStatus : PreorderStatus
  changedBy : Nat
  timestamp : Nat
deriving DecidableEq, Repr

/-- One address row (table addresses), restricted to the ownership check. -/
structure AddressRec where
  id : Nat
  userId : Nat
deriving DecidableEq, Repr

/-- The database state touched by the workflows under verification.  inv maps
a product variant id to its inventory row (the 1:1 inventory relation);
cartItems is the acting user's cart; totalPreorders lives inside each product
row.  New rows are prepended to the lists; lookups by unique id are find?
calls, which is faithful because ids are unique. -/
structure Store where
  inv : Nat → InventoryRec
  cartItems : List CartItem
  orders : List StoredOrder
  nextOrderId : Nat
  products : List ProductRec
  preorders : List PreorderRec
  nextPreorderId : Nat
  preorderHistory : List HistRec
  addresses : List AddressRec

/-- Failure kinds of the order placement handler. -/
inductive OrderErr where
  | emptyCart
  | insufficientStock (productId : Nat)
deriving DecidableEq, Repr

/-- Failure kinds of the order cancellation handler. -/
inductive CancelErr where
  | notFound
  | cannotCancel
deriving DecidableEq, Repr

/-- Failure kinds of the admin order status update handler. -/
inductive OrdUpdErr where
  | validation
  | notFound
deriving DecidableEq, Repr

/-- Failure kinds of the preorder placement handler, one per early return in
src/routes/admin.js lines 382-458. -/
inductive PreErr where
  | productNotFound
  | variantNotFound
  | windowClosed
  | limitExceeded (available : Int)
  | duplicatePreorder
  | addressNotFound
deriving DecidableEq, Repr

/-- Failure kinds of the admin preorder status update handler. -/
inductive PreUpdErr where
  | validation
  | notFound
  | invalidTransition
deriving DecidableEq, Repr

/-- Request body of the preorder placement handler; depositAmount defaults
to 0 in the source destructuring. -/
structure PreorderReq where
  productId : Nat
  productVariantId : Option Nat
  quantity : Nat
  shippingAddressId : Option Nat
  depositAmount : Rat
deriving DecidableEq, Repr

/-- The items of the cart with isPreorder false (regularItems,
src/routes/orders.js line 86). -/
def regularItemsOf (st : Store) : List CartItem :=
  st.cartItems.filter (fun it => !it.isPreorder)

/-- The items of the cart with isPreorder true (preorderItems,
src/routes/orders.js line 87). -/
def preorderItemsOf (st : Store) : List CartItem :=
  st.cartItems.filter (fun it => it.isPreorder)

/-- The per-item stock test of the placement loop (src/routes/orders.js
lines 90-96): an item fails when it references a variant whose inventory
quantity is below the requested quantity; items without a variant are not
checked. -/
def stockFail (st : Store) (it : CartItem) : Bool :=
  match it.productVariantId with
  | some v => decide ((st.inv v).quantity < (it.quantity : Int))
  | none => false

/-- cart.items.reduce of price times quantity with initial value 0
(src/routes/orders.js line 99). -/
def cartTotal (items : List CartItem) : Rat :=
  items.foldl (fun s it => s + it.price * (it.quantity : Rat)) 0

/-- The order item snapshot taken from a cart item at order creation
(src/routes/orders.js lines 117-124). -/
def snapshotItem (it : CartItem) : OrderItem :=
  { productId := it.productId
    productVariantId := it.productVariantId
    quantity := it.quantity
    price := it.price
    total := it.price * (it.quantity : Rat)
    isPreorder := it.isPreorder }

/-- The inventory decrement loop of the order placement transaction
(src/routes/orders.js lines 144-156): for every regular item that references
a variant, decrement that variant's quantity by the item quantity. -/
def decrementInventory (inv : Nat → InventoryRec) (items : List CartItem) :
    Nat → InventoryRec :=
  items.foldl
    (fun acc it =>
      match it.productVariantId with
      | some v =>
          fun x =>
            if x = v then
              { acc v with quantity := (acc v).quantity - (it.quantity : Int) }
            else acc x
      | none => acc)
    inv

/-- The order row created by the placement transaction (src/routes/orders.js
lines 107-126); status takes the database default PENDING, orderType is
PREORDER when preorderItems.length is positive. -/
def newOrderOf (uid : Nat) (st : Store) : StoredOrder :=
  { id := st.nextOrderId
    userId := uid
    totalAmount := cartTotal st.cartItems
    orderType := if (preorderItemsOf st).length > 0 then .PREORDER else .REGULAR
    status := .PENDING
    items := st.cartItems.map snapshotItem }

/-- POST /api/orders (src/routes/orders.js lines 50-171).  Empty cart is
refused; then the stock loop returns the first insufficient regular item;
otherwise one transaction creates the order with its item snapshots,
decrements inventory for the regular items with a variant, and deletes the
cart items. -/
def createOrder (uid : Nat) (st : Store) : Except OrderErr StoredOrder × Store :=
  if st.cartItems = [] then (.error .emptyCart, st)
  else
    match (regularItemsOf st).find? (stockFail st) with
    | some it => (.error (.insufficientStock it.productId), st)
    | none =>
        (.ok (newOrderOf uid st),
          { st with
            orders := newOrderOf uid st :: st.orders
            nextOrderId := st.nextOrderId + 1
            inv := decrementInventory st.inv (regularItemsOf st)
            cartItems := [] })

/-- prisma.order.findFirst with id and userId in the where clause
(src/routes/orders.js lines 318-330). -/
def findOrder (st : Store) (oid uid : Nat) : Option StoredOrder :=
  st.orders.find? (fun o => o.id = oid && o.userId = uid)

/-- The inventory restore loop of the cancellation transaction
(src/routes/orders.js lines 347-359): for every order item that is not a
preorder and references a variant, increment that variant's quantity by the
item quantity. -/
def incrementInventory (inv : Nat → InventoryRec) (items : List OrderItem) :
    Nat → InventoryRec :=
  items.foldl
    (fun acc it =>
      if !it.isPreorder then
        match it.productVariantId with
        | some v =>
            fun x =>
              if x = v then
                { acc v with quantity := (acc v).quantity + (it.quantity : Int) }
              else acc x
        | none => acc
      else acc)
    inv

/-- PUT /api/orders/:id/cancel (src/routes/orders.js lines 314-367).  The
order must exist for this caller; its status must be PENDING or CONFIRMED;
then one transaction sets the status to CANCELLED and restores inventory for
non-preorder items with a variant. -/
def cancelOrder (uid oid : Nat) (st : Store) : Except CancelErr Unit × Store :=
  match findOrder st oid uid with
  | none => (.error .notFound, st)
  | some o =>
      if o.status = .PENDING ∨ o.status = .CONFIRMED then
        (.ok (),
          { st with
            orders := st.orders.map
              (fun p => if p.id = oid then { p with status := .CANCELLED } else p)
            inv := incrementInventory st.inv o.items })
      else (.error .cannotCancel, st)

/-- PUT /api/orders/:id/status (src/routes/orders.js lines 402-441).  After
the isIn validator, prisma.order.update applies the requested status
directly; there is no read of the current status and no transition check.  A
missing id makes prisma.update throw, surfaced as a 500; the store is
unchanged in that case. -/
def adminUpdateOrderStatus (oid : Nat) (req : String) (st : Store) :
    Except OrdUpdErr OrderStatus × Store :=
  match parseOrderStatus req with
  | none => (.error .validation, st)
  | some s =>
      if (st.orders.find? (fun o => o.id = oid)).isSome then
        (.ok s,
          { st with
            orders := st.orders.map
              (fun o => if o.id = oid then { o with status := s } else o) })
      else (.error .notFound, st)

/-- Sum of the quantities of the active (PENDING or CONFIRMED) preorders of a
product: the prisma aggregate of src/routes/admin.js lines 407-417, with the
JS fallback of null to 0. -/
def activePreorderQty (preorders : List PreorderRec) (pid : Nat) : Nat :=
  (preorders.filter
      (fun p => p.productId = pid &&
        (p.status = PreorderStatus.PENDING || p.status = PreorderStatus.CONFIRMED))).foldl
    (fun s p => s + p.quantity) 0

/-- The preorder limit gate (src/routes/admin.js lines 406-426).  The JS test
if (product.preorderLimit) treats both null and 0 as falsy because the column
is an Int, so a limit of 0 skips the check; with a truthy limit the request
is rejected when existing plus requested exceeds it, reporting the remaining
capacity limit minus existing.  Returns the reported capacity on
rejection. -/
def preorderLimitCheck (limit : Option Nat) (existingQty q : Nat) : Option Int :=
  match limit with
  | some l =>
      if l = 0 then none
      else if existingQty + q > l then some ((l : Int) - (existingQty : Int))
      else none
  | none => none

/-- The variant validation of the preorder placement handler
(src/routes/admin.js lines 389-396): when a variant id is supplied, it must
be among the product's active variants; otherwise the check passes. -/
def variantOk (product : ProductRec) (r : PreorderReq) : Bool :=
  match r.productVariantId with
  | some v => product.variantIds.contains v
  | none => true

/-- The shipping address validation of the preorder placement handler
(src/routes/admin.js lines 446-459): when an address id is supplied, an
address row with that id owned by the caller must exist. -/
def addressOk (uid : Nat) (st : Store) (r : PreorderReq) : Bool :=
  match r.shippingAddressId with
  | some a => st.addresses.any (fun ad => ad.id = a && ad.userId = uid)
  | none => true

/-- The duplicate-preorder check of the placement handler
(src/routes/admin.js lines 429-443): true when the caller already holds an
active (PENDING or CONFIRMED) preorder for the same product and variant. -/
def duplicatePre (uid : Nat) (r : PreorderReq) (preorders : List PreorderRec) :
    Bool :=
  preorders.any (fun p =>
    p.userId = uid && p.productId = r.productId &&
    p.productVariantId = r.productVariantId &&
    (p.status = PreorderStatus.PENDING || p.status = PreorderStatus.CONFIRMED))

/-- The preorder-window check of the placement handler (src/routes/admin.js
lines 398-403): closed when an expected stock date exists and now is past
it. -/
def windowClosed (now : Nat) (product : ProductRec) : Bool :=
  match product.expectedStockDate with
  | some d => decide (now > d)
  | none => false

/-- The preorder row created by the placement transaction
(src/routes/admin.js lines 461-487).  The price expression
product.preorderPrice or-else product.basePrice is a null test: the column is
a prisma Decimal, and a non-null Decimal object is truthy in JS even when it
is numerically 0 (and the product create/update routes store 0 as null
anyway), so it is getD.  depositPaid is Math.min of the caller deposit and
the total; status is CONFIRMED exactly when the clamped deposit is
positive. -/
def mkPreorder (uid nextId : Nat) (product : ProductRec) (r : PreorderReq) :
    PreorderRec :=
  let price := product.preorderPrice.getD product.basePrice
  let totalAmount := price * (r.quantity : Rat)
  let deposit := min r.depositAmount totalAmount
  { id := nextId
    userId := uid
    productId := r.productId
    productVariantId := r.productVariantId
    quantity := r.quantity
    price := price
    depositPaid := deposit
    remainingAmount := totalAmount - deposit
    status := if deposit > 0 then .CONFIRMED else .PENDING
    shippingAddressId := r.shippingAddressId
    expectedDate := product.expectedStockDate }

/-- POST /api/preorders (src/routes/admin.js lines 335-541).  Checks in
source order: product exists, is active and allows preorders; a given variant
is among the product's active variants; the expected stock date, when set,
has not passed; the preorder limit gate; no active duplicate preorder by the
same user for the same product and variant; a given shipping address belongs
to the caller.  Then one transaction creates the preorder row and increments
the product's totalPreorders counter by the requested quantity.  No inventory
row is read for update or written anywhere in the handler. -/
def createPreorder (uid now : Nat) (r : PreorderReq) (st : Store) :
    Except PreErr PreorderRec × Store :=
  match st.products.find?
      (fun p => p.id = r.productId && p.isActive && p.allowPreorder) with
  | none => (.error .productNotFound, st)
  | some product =>
      if variantOk product r = false then (.error .variantNotFound, st)
      else if windowClosed now product then (.error .windowClosed, st)
      else
        match preorderLimitCheck product.preorderLimit
            (activePreorderQty st.preorders r.productId) r.quantity with
        | some available => (.error (.limitExceeded available), st)
        | none =>
            if duplicatePre uid r st.preorders then
              (.error .duplicatePreorder, st)
            else if addressOk uid st r = false then (.error .addressNotFound, st)
            else
              (.ok (mkPreorder uid st.nextPreorderId product r),
                { st with
                  preorders := mkPreorder uid st.nextPreorderId product r :: st.preorders
                  nextPreorderId := st.nextPreorderId + 1
                  products := st.products.map (fun p =>
                    if p.id = r.productId then
                      { p with totalPreorders := p.totalPreorders + (r.quantity : Int) }
                    else p) })

/-- The validTransitions table of the preorder status update handler
(src/routes/admin.js lines 1049-1057). -/
def validPreorderTransitions : PreorderStatus → List PreorderStatus
  | .PENDING => [.CONFIRMED, .CANCELLED, .EXPIRED]
  | .CONFIRMED => [.READY, .CANCELLED]
  | .READY => [.SHIPPED, .CANCELLED]
  | .SHIPPED => [.DELIVERED]
  | .DELIVERED => []
  | .CANCELLED => []
  | .EXPIRED => []

/-- PUT /api/preorders/:id/status (src/routes/admin.js lines 1011-1126).
After the isIn validator and the findUnique lookup, the requested status must
be in validTransitions of the current status; on acceptance the preorder row
is updated and a preorderStatusHistory record is created carrying the old
status, the new status, the acting admin and a timestamp. -/
def updatePreorderStatus (pid : Nat) (req : String) (actor now : Nat)
    (st : Store) : Except PreUpdErr PreorderStatus × Store :=
  match parsePreorderStatus req with
  | none => (.error .validation, st)
  | some s =>
      match st.preorders.find? (fun p => p.id = pid) with
      | none => (.error .notFound, st)
      | some cur =>
          if s ∈ validPreorderTransitions cur.status then
            (.ok s,
              { st with
                preorders := st.preorders.map
                  (fun p => if p.id = pid then { p with status := s } else p)
                preorderHistory :=
                  { preorderId := pid
                    fromStatus := cur.status
                    toStatus := s
                    changedBy := actor
                    timestamp := now } :: st.preorderHistory })
          else (.error .invalidTransition, st)

/-- The result store of a successful order placement. -/
def orderSuccessStore (uid : Nat) (st : Store) : Store :=
  { st with
    orders := newOrderOf uid st :: st.orders
    nextOrderId := st.nextOrderId + 1
    inv := decrementInventory st.inv (regularItemsOf st)
    cartItems := [] }

/-- The result store of a successful preorder placement. -/
def preorderSuccessStore (uid : Nat) (product : ProductRec) (r : PreorderReq)
    (st : Store) : Store :=
  { st with
    preorders := mkPreorder uid st.nextPreorderId product r :: st.preorders
    nextPreorderId := st.nextPreorderId + 1
    products := st.products.map (fun p =>
      if p.id = r.productId then
        { p with totalPreorders := p.totalPreorders + (r.quantity : Int) }
      else p) }

/-- Projection of an order row to every field except status, used to state
that the admin status update touches nothing else. -/
def orderSansStatus (o : StoredOrder) :
    Nat × Nat × Rat × OrderType × List OrderItem :=
  (o.id, o.userId, o.totalAmount, o.orderType, o.items)

/-! Concrete stores used by the witness and counterexample theorems. -/

/-- Inventory with five units on variant 7 and empty elsewhere. -/
def inv0 : Nat → InventoryRec :=
  fun v => if v = 7 then ⟨5, 0, 10⟩ else ⟨0, 0, 10⟩

/-- A cart line of two units of variant 7 of product 1 at captured price
21.99, not a preorder. -/
def demoCartItem : CartItem :=
  { productId := 1, productVariantId := some 7, quantity := 2,
    price := 2199/100, isPreorder := false }

/-- Store with one regular cart line and stock five on its variant. -/
def demoStore : Store :=
  { inv := inv0, cartItems := [demoCartItem], orders := [], nextOrderId := 1,
    products := [], preorders := [], nextPreorderId := 1,
    preorderHistory := [], addresses := [] }

/-- Store holding a single already delivered order of user 2. -/
def deliveredStore : Store :=
  { inv := inv0, cartItems := [],
    orders := [{ id := 1, userId := 2, totalAmount := 0,
                 orderType := .REGULAR, status := .DELIVERED, items := [] }],
    nextOrderId := 2, products := [], preorders := [], nextPreorderId := 1,
    preorderHistory := [], addresses := [] }

/-- Store holding a single already cancelled order of user 2. -/
def cancelledStore : Store :=
  { inv := inv0, cartItems := [],
    orders := [{ id := 1, userId := 2, totalAmount := 0,
                 orderType := .REGULAR, status := .CANCELLED, items := [] }],
    nextOrderId := 2, products := [], preorders := [], nextPreorderId := 1,
    preorderHistory := [], addresses := [] }

/-- A preorderable product: preorder price 2, limit 100, one active
variant 7. -/
def preProduct : ProductRec :=
  { id := 5, basePrice := 4, isActive := true, allowPreorder := true,
    preorderPrice := some 2, preorderLimit := some 100,
    expectedStockDate := none, totalPreorders := 90, variantIds := [7] }

/-- Store holding preProduct and one existing confirmed preorder of 90 units
by user 9. -/
def preStore : Store :=
  { inv := inv0, cartItems := [], orders := [], nextOrderId := 1,
    products := [preProduct],
    preorders := [{ id := 1, userId := 9, productId := 5,
                    productVariantId := some 7, quantity := 90, price := 2,
                    depositPaid := 0, remainingAmount := 180,
                    status := .CONFIRMED, shippingAddressId := none,
                    expectedDate := none }],
    nextPreorderId := 2, preorderHistory := [], addresses := [] }

/-- Preorder request by user 2 for three units of variant 7 of product 5 with
a deposit of 10. -/
def preReq3 : PreorderReq :=
  { productId := 5, productVariantId := some 7, quantity := 3,
    shippingAddressId := none, depositAmount := 10 }

/-- Preorder request by user 2 for eleven units, exceeding the remaining
capacity of preProduct in preStore. -/
def preReq11 : PreorderReq :=
  { productId := 5, productVariantId := some 7, quantity := 11,
    shippingAddressId := none, depositAmount := 0 }

/-- Store holding one pending preorder of user 4 and no history. -/
def pendingPreStore : Store :=
  { inv := inv0, cartItems := [], orders := [], nextOrderId := 1,
    products := [],
    preorders := [{ id := 3, userId := 4, productId := 5,
                    productVariantId := none, quantity := 1, price := 2,
                    depositPaid := 0, remainingAmount := 2,
                    status := .PENDING, shippingAddressId := none,
                    expectedDate := none }],
    nextPreorderId := 4, preorderHistory := [], addresses := [] }

/-! Helper functions and lemmas about the two inventory folds. -/

/-- Total quantity the decrement loop subtracts from variant x over a list of
cart items. -/
def variantQtySum : List CartItem → Nat → Int
  | [], _ => 0
  | it :: l, x =>
      (if it.productVariantId = some x then (it.quantity : Int) else 0) +
        variantQtySum l x

/-- Total quantity the restore loop adds back to variant x over a list of
order items. -/
def restoreQtySum : List OrderItem → Nat → Int
  | [], _ => 0
  | it :: l, x =>
      (if it.isPreorder = false ∧ it.productVariantId = some x then (it.quantity : Int) else 0) +
        restoreQtySum l x

/-- Total quantity carried on variant x by a list of order items, ignoring
the preorder flag; applied below to lists already filtered to non-preorder
items. -/
def orderVariantQtySum : List OrderItem → Nat → Int
  | [], _ => 0
  | it :: l, x =>
      (if it.productVariantId = some x then (it.quantity : Int) else 0) +
        orderVariantQtySum l x

theorem decrementInventory_apply (l : List CartItem) (inv : Nat → InventoryRec)
    (x : Nat) :
    decrementInventory inv l x =
      { inv x with quantity := (inv x).quantity - variantQtySum l x } := by
  induction l generalizing inv with
  | nil =>
      simp only [decrementInventory, List.foldl_nil, variantQtySum, sub_zero]
  | cons it l ih =>
      have hstep :
          decrementInventory inv (it :: l) =
            decrementInventory
              (match it.productVariantId with
               | some v =>
                   fun y =>
                     if y = v then
                       { inv v with quantity := (inv v).quantity - (it.quantity : Int) }
                     else inv y
               | none => inv) l := rfl
      rw [hstep, ih]
      cases hv : it.productVariantId with
      | none => simp [variantQtySum, hv]
      | some v =>
          by_cases hxv : x = v
          · subst hxv
            simp [variantQtySum, hv, sub_sub]
          · simp only [variantQtySum, hv, Option.some.injEq]
            rw [if_neg hxv, if_neg (fun h => hxv h.symm)]
            simp

theorem incrementInventory_apply (l : List OrderItem) (inv : Nat → InventoryRec)
    (x : Nat) :
    incrementInventory inv l x =
      { inv x with quantity := (inv x).quantity + restoreQtySum l x } := by
  induction l generalizing inv with
  | nil =>
      simp only [incrementInventory, List.foldl_nil, restoreQtySum, add_zero]
  | cons it l ih =>
      have hstep :
          incrementInventory inv (it :: l) =
            incrementInventory
              (if !it.isPreorder then
                 match it.productVariantId with
                 | some v =>
                     fun y =>
                       if y = v then
                         { inv v with quantity := (inv v).quantity + (it.quantity : Int) }
                       else inv y
                 | none => inv
               else inv) l := rfl
      rw [hstep, ih]
      cases hp : it.isPreorder with
      | true => simp [restoreQtySum, hp]
      | false =>
          cases hv : it.productVariantId with
          | none => simp [restoreQtySum, hp, hv]
          | some v =>
              by_cases hxv : x = v
              · subst hxv
                simp [restoreQtySum, hp, hv, add_assoc]
              · simp [restoreQtySum, hp, hv, hxv, Ne.symm hxv]

theorem variantQtySum_eq_zero (l : List CartItem) (x : Nat)
    (h : ∀ it ∈ l, it.productVariantId ≠ some x) : variantQtySum l x = 0 := by
  induction l with
  | nil => rfl
  | cons it l ih =>
      simp only [variantQtySum]
      rw [if_neg (h it (by simp)), ih (fun b hb => h b (by simp [hb]))]
      simp

theorem variantQtySum_of_nodup (l : List CartItem) (it : CartItem) (x : Nat)
    (hm : it ∈ l) (hx : it.productVariantId = some x)
    (hnd : (l.filterMap (fun b => b.productVariantId)).Nodup) :
    variantQtySum l x = (it.quantity : Int) := by
  induction l with
  | nil => cases hm
  | cons a l ih =>
      rcases List.mem_cons.mp hm with rfl | hm2
      · have hrest : ∀ b ∈ l, b.productVariantId ≠ some x := by
          intro b hb hbx
          have hmem : x ∈ l.filterMap (fun b => b.productVariantId) :=
            List.mem_filterMap.mpr ⟨b, hb, hbx⟩
          have : (List.filterMap (fun b => b.productVariantId) (it :: l)).Nodup := hnd
          rw [List.filterMap_cons, hx] at this
          exact (List.nodup_cons.mp this).1 hmem
        simp only [variantQtySum, hx,
          variantQtySum_eq_zero l x hrest, add_zero]
        simp
      · have hax : a.productVariantId ≠ some x := by
          intro hax
          have hmem : x ∈ l.filterMap (fun b => b.productVariantId) :=
            List.mem_filterMap.mpr ⟨it, hm2, hx⟩
          have : (List.filterMap (fun b => b.productVariantId) (a :: l)).Nodup := hnd
          rw [List.filterMap_cons, hax] at this
          exact (List.nodup_cons.mp this).1 hmem
        have htail : (l.filterMap (fun b => b.productVariantId)).Nodup := by
          have : (List.filterMap (fun b => b.productVariantId) (a :: l)).Nodup := hnd
          rw [List.filterMap_cons] at this
          cases ha : a.productVariantId with
          | none => rwa [ha] at this
          | some w =>
              rw [ha] at this
              exact (List.nodup_cons.mp this).2
        simp only [variantQtySum, if_neg hax, zero_add]
        exact ih hm2 htail

theorem restoreQtySum_map_snapshot (l : List CartItem) (x : Nat) :
    restoreQtySum (l.map snapshotItem) x =
      variantQtySum (l.filter (fun b => !b.isPreorder)) x := by
  induction l with
  | nil => rfl
  | cons a l ih =>
      cases hp : a.isPreorder with
      | true =>
          simp only [List.map_cons, restoreQtySum, snapshotItem, hp,
            List.filter_cons, ih]
          simp
      | false =>
          simp only [List.map_cons, restoreQtySum, snapshotItem, hp,
            List.filter_cons, ih]
          simp [variantQtySum]

theorem restoreQtySum_eq_filter (l : List OrderItem) (x : Nat) :
    restoreQtySum l x =
      orderVariantQtySum (l.filter (fun b => !b.isPreorder)) x := by
  induction l with
  | nil => rfl
  | cons a l ih =>
      cases hp : a.isPreorder with
      | true => simp [restoreQtySum, orderVariantQtySum, hp, List.filter_cons, ih]
      | false => simp [restoreQtySum, orderVariantQtySum, hp, List.filter_cons, ih]

theorem orderVariantQtySum_eq_zero (l : List OrderItem) (x : Nat)
    (h : ∀ it ∈ l, it.productVariantId ≠ some x) :
    orderVariantQtySum l x = 0 := by
  induction l with
  | nil => rfl
  | cons it l ih =>
      simp only [orderVariantQtySum]
      rw [if_neg (h it (by simp)), ih (fun b hb => h b (by simp [hb]))]
      simp

theorem orderVariantQtySum_of_nodup (l : List OrderItem) (it : OrderItem)
    (x : Nat) (hm : it ∈ l) (hx : it.productVariantId = some x)
    (hnd : (l.filterMap (fun b => b.productVariantId)).Nodup) :
    orderVariantQtySum l x = (it.quantity : Int) := by
  induction l with
  | nil => cases hm
  | cons a l ih =>
      rcases List.mem_cons.mp hm with rfl | hm2
      · have hrest : ∀ b ∈ l, b.productVariantId ≠ some x := by
          intro b hb hbx
          have hmem : x ∈ l.filterMap (fun b => b.productVariantId) :=
            List.mem_filterMap.mpr ⟨b, hb, hbx⟩
          have hcons : (List.filterMap (fun b => b.productVariantId) (it :: l)).Nodup := hnd
          rw [List.filterMap_cons, hx] at hcons
          exact (List.nodup_cons.mp hcons).1 hmem
        simp only [orderVariantQtySum, hx,
          orderVariantQtySum_eq_zero l x hrest, add_zero]
        simp
      · have hax : a.productVariantId ≠ some x := by
          intro hax
          have hmem : x ∈ l.filterMap (fun b => b.productVariantId) :=
            List.mem_filterMap.mpr ⟨it, hm2, hx⟩
          have hcons : (List.filterMap (fun b => b.productVariantId) (a :: l)).Nodup := hnd
          rw [List.filterMap_cons, hax] at hcons
          exact (List.nodup_cons.mp hcons).1 hmem
        have htail : (l.filterMap (fun b => b.productVariantId)).Nodup := by
          have hcons : (List.filterMap (fun b => b.productVariantId) (a :: l)).Nodup := hnd
          rw [List.filterMap_cons] at hcons
          cases ha : a.productVariantId with
          | none => rwa [ha] at hcons
          | some w =>
              rw [ha] at hcons
              exact (List.nodup_cons.mp hcons).2
        simp only [orderVariantQtySum, if_neg hax, zero_add]
        exact ih hm2 htail

theorem stockFail_eq_false_iff (st : Store) (it : CartItem) :
    stockFail st it = false ↔
      ∀ v, it.productVariantId = some v →
        (it.quantity : Int) ≤ (st.inv v).quantity := by
  cases h : it.productVariantId with
  | none => simp [stockFail, h]
  | some v => simp [stockFail, h, not_lt]

theorem createOrder_success (uid : Nat) (st : Store)
    (hne : st.cartItems ≠ [])
    (hfind : (regularItemsOf st).find? (stockFail st) = none) :
    createOrder uid st = (.ok (newOrderOf uid st), orderSuccessStore uid st) := by
  unfold createOrder orderSuccessStore
  rw [if_neg hne, hfind]

theorem createOrder_ok_inv (uid : Nat) (st : Store) (ord : StoredOrder)
    (st2 : Store) (h : createOrder uid st = (.ok ord, st2)) :
    ord = newOrderOf uid st ∧ st2 = orderSuccessStore uid st := by
  unfold createOrder at h
  split at h
  · simp at h
  · split at h
    · simp at h
    · simp only [Prod.mk.injEq, Except.ok.injEq] at h
      exact ⟨h.1.symm, h.2.symm⟩

theorem createPreorder_ok_inv (uid now : Nat) (r : PreorderReq) (st : Store)
    (pre : PreorderRec) (st2 : Store)
    (h : createPreorder uid now r st = (.ok pre, st2)) :
    ∃ product,
      st.products.find?
          (fun p => p.id = r.productId && p.isActive && p.allowPreorder) =
        some product ∧
      pre = mkPreorder uid st.nextPreorderId product r ∧
      st2 = preorderSuccessStore uid product r st := by
  unfold createPreorder at h
  split at h
  · simp at h
  · rename_i product hfind
    split at h
    · simp at h
    · split at h
      · simp at h
      · split at h
        · simp at h
        · split at h
          · simp at h
          · split at h
            · simp at h
            · simp only [Prod.mk.injEq, Except.ok.injEq] at h
              exact ⟨product, hfind, h.1.symm, h.2.symm⟩

theorem createPreorder_success (uid now : Nat) (r : PreorderReq) (st : Store)
    (product : ProductRec)
    (hfind : st.products.find?
        (fun p => p.id = r.productId && p.isActive && p.allowPreorder) =
      some product)
    (hvar : variantOk product r = true)
    (hwin : windowClosed now product = false)
    (hlim : preorderLimitCheck product.preorderLimit
        (activePreorderQty st.preorders r.productId) r.quantity = none)
    (hdup : duplicatePre uid r st.preorders = false)
    (haddr : addressOk uid st r = true) :
    createPreorder uid now r st =
      (.ok (mkPreorder uid st.nextPreorderId product r),
        preorderSuccessStore uid product r st) := by
  unfold createPreorder
  rw [hfind]
  dsimp only
  rw [if_neg (by simp [hvar])]
  rw [if_neg (by simp [hwin])]
  rw [hlim]
  rw [if_neg (by simp [hdup])]
  rw [if_neg (by simp [haddr])]
  rfl

/-- C1: Inventory non-negativity under order placement.  Starting from
inventory quantities all at least 0, and a cart whose regular items reference
pairwise distinct variants (the add-to-cart route merges duplicate
product-variant-flag lines), if some regular cart item referencing a variant
has less inventory than its quantity then placement fails with the
insufficient-stock error and the store is unchanged; otherwise (cart
non-empty) placement succeeds, every such variant ends with exactly its
previous quantity minus the item quantity, and every inventory quantity is
still at least 0. -/
theorem order_placement_inventory_safety (uid : Nat) (st : Store)
    (hpos : ∀ v, 0 ≤ (st.inv v).quantity)
    (hnd : ((regularItemsOf st).filterMap (fun b => b.productVariantId)).Nodup) :
    ((∃ it ∈ regularItemsOf st, ∃ v, it.productVariantId = some v ∧
        (st.inv v).quantity < (it.quantity : Int)) →
      (∃ p, (createOrder uid st).1 = .error (.insufficientStock p)) ∧
        (createOrder uid st).2 = st) ∧
    (st.cartItems ≠ [] →
      (∀ it ∈ regularItemsOf st, ∀ v, it.productVariantId = some v →
        (it.quantity : Int) ≤ (st.inv v).quantity) →
      (createOrder uid st).1 = .ok (newOrderOf uid st) ∧
        (∀ it ∈ regularItemsOf st, ∀ v, it.productVariantId = some v →
          ((createOrder uid st).2.inv v).quantity =
            (st.inv v).quantity - (it.quantity : Int)) ∧
        (∀ v, 0 ≤ ((createOrder uid st).2.inv v).quantity)) := by
  constructor
  · rintro ⟨it, hm, v, hv, hlt⟩
    have hfail : stockFail st it = true := by simp [stockFail, hv, hlt]
    have hne : st.cartItems ≠ [] := by
      intro h0
      rw [regularItemsOf, h0] at hm
      cases hm
    cases hf : (regularItemsOf st).find? (stockFail st) with
    | none =>
        exact absurd hfail (by simpa using List.find?_eq_none.mp hf it hm)
    | some bad =>
        have : createOrder uid st = (.error (.insufficientStock bad.productId), st) := by
          unfold createOrder
          rw [if_neg hne, hf]
        rw [this]
        exact ⟨⟨bad.productId, rfl⟩, rfl⟩
  · intro hne hstock
    have hfind : (regularItemsOf st).find? (stockFail st) = none := by
      apply List.find?_eq_none.mpr
      intro it hm
      simp [(stockFail_eq_false_iff st it).mpr (hstock it hm)]
    rw [createOrder_success uid st hne hfind]
    have hq : ∀ v, (decrementInventory st.inv (regularItemsOf st) v).quantity =
        (st.inv v).quantity - variantQtySum (regularItemsOf st) v := by
      intro v
      rw [decrementInventory_apply]
    refine ⟨rfl, ?_, ?_⟩
    · intro it hm v hv
      show (decrementInventory st.inv (regularItemsOf st) v).quantity = _
      rw [hq v, variantQtySum_of_nodup (regularItemsOf st) it v hm hv hnd]
    · intro v
      show 0 ≤ (decrementInventory st.inv (regularItemsOf st) v).quantity
      rw [hq v]
      by_cases hex : ∃ it ∈ regularItemsOf st, it.productVariantId = some v
      · obtain ⟨it, hm, hv⟩ := hex
        rw [variantQtySum_of_nodup (regularItemsOf st) it v hm hv hnd]
        have := hstock it hm v hv
        omega
      · rw [variantQtySum_eq_zero (regularItemsOf st) v
          (fun b hb hbv => hex ⟨b, hb, hbv⟩)]
        have := hpos v
        omega

/-- C1 witness: in the demo store the single regular line of two units on
variant 7 passes the stock check and leaves quantity 3, still
non-negative. -/
theorem order_placement_inventory_safety_witness :
    ((createOrder 1 demoStore).2.inv 7).quantity = 3 ∧
      0 ≤ ((createOrder 1 demoStore).2.inv 7).quantity := by
  have hpos : ∀ v, 0 ≤ (demoStore.inv v).quantity := by
    intro v
    by_cases h : v = 7 <;> simp [demoStore, inv0, h]
  have hnd :
      ((regularItemsOf demoStore).filterMap (fun b => b.productVariantId)).Nodup := by
    decide
  have hstock : ∀ it ∈ regularItemsOf demoStore, ∀ v,
      it.productVariantId = some v →
        (it.quantity : Int) ≤ (demoStore.inv v).quantity := by
    intro it hm v hv
    have hit : it = demoCartItem := by
      simpa [regularItemsOf, demoStore, demoCartItem] using hm
    subst hit
    have hv7 : v = 7 := by
      simpa [demoCartItem] using hv.symm
    subst hv7
    simp [demoStore, inv0, demoCartItem]
  have h := (order_placement_inventory_safety 1 demoStore hpos hnd).2
    (by simp [demoStore]) hstock
  have hq := h.2.1 demoCartItem
    (by simp [regularItemsOf, demoStore, demoCartItem]) 7 rfl
  have h5 : (demoStore.inv 7).quantity = 5 := by simp [demoStore, inv0]
  refine ⟨?_, ?_⟩
  · rw [hq, h5]
    decide
  · exact h.2.2 7

theorem foldl_add_eq (f : CartItem → Rat) (l : List CartItem) :
    ∀ a : Rat, l.foldl (fun s it => s + f it) a = a + (l.map f).sum := by
  induction l with
  | nil => intro a; simp
  | cons it l ih => intro a; simp [ih, add_assoc]

theorem cartTotal_eq_sum (l : List CartItem) :
    cartTotal l = (l.map (fun it => it.price * (it.quantity : Rat))).sum := by
  rw [cartTotal, foldl_add_eq]
  simp

theorem preorderItems_length_pos_iff (st : Store) :
    0 < (preorderItemsOf st).length ↔
      ∃ it ∈ st.cartItems, it.isPreorder = true := by
  rw [List.length_pos_iff_exists_mem]
  constructor
  · rintro ⟨a, ha⟩
    have := List.mem_filter.mp ha
    exact ⟨a, this.1, by simpa using this.2⟩
  · rintro ⟨a, hm, hp⟩
    exact ⟨a, List.mem_filter.mpr ⟨hm, by simpa using hp⟩⟩

/-- C2: Order placement postcondition.  For a non-empty cart whose regular
variant items all pass the stock check, placement succeeds with totalAmount
the sum of captured price times quantity over all cart items, orderType
PREORDER exactly when some item is flagged as a preorder and REGULAR
otherwise, exactly one order item snapshot per cart item, and an empty cart
afterwards. -/
theorem order_placement_postcondition (uid : Nat) (st : Store)
    (hne : st.cartItems ≠ [])
    (hstock : ∀ it ∈ regularItemsOf st, ∀ v, it.productVariantId = some v →
      (it.quantity : Int) ≤ (st.inv v).quantity) :
    (createOrder uid st).1 = .ok (newOrderOf uid st) ∧
    (newOrderOf uid st).totalAmount =
      (st.cartItems.map (fun it => it.price * (it.quantity : Rat))).sum ∧
    ((newOrderOf uid st).orderType = .PREORDER ↔
      ∃ it ∈ st.cartItems, it.isPreorder = true) ∧
    ((newOrderOf uid st).orderType = .REGULAR ↔
      ¬ ∃ it ∈ st.cartItems, it.isPreorder = true) ∧
    (newOrderOf uid st).items = st.cartItems.map snapshotItem ∧
    (createOrder uid st).2.cartItems = [] := by
  have hfind : (regularItemsOf st).find? (stockFail st) = none := by
    apply List.find?_eq_none.mpr
    intro it hm
    simp [(stockFail_eq_false_iff st it).mpr (hstock it hm)]
  rw [createOrder_success uid st hne hfind]
  refine ⟨rfl, cartTotal_eq_sum st.cartItems, ?_, ?_, rfl, rfl⟩
  · show (if 0 < (preorderItemsOf st).length then OrderType.PREORDER
        else OrderType.REGULAR) = OrderType.PREORDER ↔ _
    by_cases hp : 0 < (preorderItemsOf st).length
    · simpa [hp] using (preorderItems_length_pos_iff st).mp hp
    · simp only [if_neg hp]
      constructor
      · intro h; cases h
      · intro h
        exact absurd ((preorderItems_length_pos_iff st).mpr h) hp
  · show (if 0 < (preorderItemsOf st).length then OrderType.PREORDER
        else OrderType.REGULAR) = OrderType.REGULAR ↔ _
    by_cases hp : 0 < (preorderItemsOf st).length
    · simp only [if_pos hp]
      constructor
      · intro h; cases h
      · intro h
        exact absurd ((preorderItems_length_pos_iff st).mp hp) h
    · simp only [if_neg hp]
      constructor
      · intro _ h
        exact absurd ((preorderItems_length_pos_iff st).mpr h) hp
      · intro _; trivial

/-- C2 witness: the scenario of two units at price 21.99 and stock 5 yields
totalAmount 43.98, a REGULAR order, one snapshot item, an empty cart, and
stock 3. -/
theorem order_placement_postcondition_witness :
    (createOrder 1 demoStore).1 = .ok (newOrderOf 1 demoStore) ∧
    (newOrderOf 1 demoStore).totalAmount = 4398/100 ∧
    (newOrderOf 1 demoStore).orderType = OrderType.REGULAR ∧
    (newOrderOf 1 demoStore).items = [snapshotItem demoCartItem] ∧
    (createOrder 1 demoStore).2.cartItems = [] ∧
    ((createOrder 1 demoStore).2.inv 7).quantity = 3 := by
  have hstock : ∀ it ∈ regularItemsOf demoStore, ∀ v,
      it.productVariantId = some v →
        (it.quantity : Int) ≤ (demoStore.inv v).quantity := by
    intro it hm v hv
    have hit : it = demoCartItem := by
      simpa [regularItemsOf, demoStore, demoCartItem] using hm
    subst hit
    have hv7 : v = 7 := by
      simpa [demoCartItem] using hv.symm
    subst hv7
    simp [demoStore, inv0, demoCartItem]
  have h := order_placement_postcondition 1 demoStore (by simp [demoStore]) hstock
  refine ⟨h.1, ?_, ?_, ?_, h.2.2.2.2.2, ?_⟩
  · rw [h.2.1]
    show demoCartItem.price * (demoCartItem.quantity : Rat) + 0 = 4398/100
    norm_num [demoCartItem]
  · rw [h.2.2.2.1]
    rintro ⟨it, hm, hp⟩
    have hit : it = demoCartItem := by
      simpa [demoStore] using hm
    subst hit
    simp [demoCartItem] at hp
  · rw [h.2.2.2.2.1]
    rfl
  · have h7 : (demoStore.inv 7).quantity = 5 := by simp [demoStore, inv0]
    have hsum : variantQtySum (regularItemsOf demoStore) 7 = 2 := by
      show variantQtySum (List.filter _ [demoCartItem]) 7 = 2
      simp [variantQtySum, demoCartItem, List.filter]
    have : (createOrder 1 demoStore).2.inv 7 =
        decrementInventory demoStore.inv (regularItemsOf demoStore) 7 := by
      rw [createOrder_success 1 demoStore (by simp [demoStore])
        (List.find?_eq_none.mpr (fun it hm => by
          simp [(stockFail_eq_false_iff demoStore it).mpr (hstock it hm)]))]
      rfl
    rw [this, decrementInventory_apply, hsum, h7]
    decide

/-- C3 counterexample: requesting CANCELLED on an order whose current status
is DELIVERED is accepted by the admin endpoint and the order's status is
overwritten, contradicting the claim that such a request fails with a
transition error and leaves the order unchanged. -/
theorem admin_order_status_claim_counterexample :
    (adminUpdateOrderStatus 1 "CANCELLED" deliveredStore).1 =
      .ok OrderStatus.CANCELLED ∧
    ((adminUpdateOrderStatus 1 "CANCELLED" deliveredStore).2.orders.map
      StoredOrder.status) = [OrderStatus.CANCELLED] ∧
    (deliveredStore.orders.map StoredOrder.status) = [OrderStatus.DELIVERED] := by
  refine ⟨rfl, rfl, rfl⟩

/-- C3 (amended): the admin order status update endpoint performs no
transition validation at all.  Whenever the request string is one of the six
enum statuses and the order id exists, the update is accepted and the
requested status is applied regardless of the current status; a request
string outside the enum fails validation. -/
theorem admin_order_status_no_transition_check (st : Store) (oid : Nat)
    (req : String) (s : OrderStatus)
    (hp : parseOrderStatus req = some s)
    (hf : (st.orders.find? (fun o => o.id = oid)).isSome = true) :
    (adminUpdateOrderStatus oid req st).1 = .ok s ∧
    (adminUpdateOrderStatus oid req st).2.orders =
      st.orders.map
        (fun o => if o.id = oid then { o with status := s } else o) := by
  unfold adminUpdateOrderStatus
  rw [hp]
  dsimp only
  rw [if_pos hf]
  exact ⟨rfl, rfl⟩

/-- C3 witness: the amended theorem applied to the delivered order. -/
theorem admin_order_status_no_transition_check_witness :
    (adminUpdateOrderStatus 1 "CANCELLED" deliveredStore).1 =
      .ok OrderStatus.CANCELLED :=
  (admin_order_status_no_transition_check deliveredStore 1 "CANCELLED"
    OrderStatus.CANCELLED rfl rfl).1

/-- C4: Preorder pricing and deposit split.  Every accepted preorder
placement stores the effective unit price (preorderPrice when set, else
basePrice), clamps the caller deposit to the total price times quantity so
the deposit never exceeds the total, stores the difference as the remaining
amount (0 when the caller deposit covers the total), and starts in CONFIRMED
exactly when the stored deposit is positive, PENDING otherwise. -/
theorem preorder_pricing_deposit (uid now : Nat) (r : PreorderReq) (st : Store)
    (pre : PreorderRec) (st2 : Store)
    (h : createPreorder uid now r st = (.ok pre, st2)) :
    ∃ product,
      st.products.find?
          (fun p => p.id = r.productId && p.isActive && p.allowPreorder) =
        some product ∧
      pre.price = product.preorderPrice.getD product.basePrice ∧
      pre.depositPaid = min r.depositAmount (pre.price * (r.quantity : Rat)) ∧
      pre.depositPaid ≤ pre.price * (r.quantity : Rat) ∧
      pre.remainingAmount = pre.price * (r.quantity : Rat) - pre.depositPaid ∧
      (pre.price * (r.quantity : Rat) ≤ r.depositAmount →
        pre.remainingAmount = 0) ∧
      (pre.status = .CONFIRMED ↔ 0 < pre.depositPaid) ∧
      (pre.status = .PENDING ↔ ¬ 0 < pre.depositPaid) := by
  obtain ⟨product, hfind, hpre, hst2⟩ := createPreorder_ok_inv uid now r st pre st2 h
  subst hpre
  refine ⟨product, hfind, rfl, rfl, min_le_right _ _, rfl, ?_, ?_, ?_⟩
  · intro hcov
    show Option.getD product.preorderPrice product.basePrice * (r.quantity : Rat) -
        min r.depositAmount
          (Option.getD product.preorderPrice product.basePrice * (r.quantity : Rat)) = 0
    have hcov2 : Option.getD product.preorderPrice product.basePrice *
        (r.quantity : Rat) ≤ r.depositAmount := hcov
    rw [min_eq_right hcov2, sub_self]
  · simp only [mkPreorder]
    by_cases hd : 0 < min r.depositAmount
        (Option.getD product.preorderPrice product.basePrice * (r.quantity : Rat))
    · simp [hd]
    · simp [hd]
  · simp only [mkPreorder]
    by_cases hd : 0 < min r.depositAmount
        (Option.getD product.preorderPrice product.basePrice * (r.quantity : Rat))
    · simp [hd]
    · simp [hd]

/-- C4 witness: product with preorder price 2, three units requested, caller
deposit 10: the deposit is clamped to the total 6, the remaining amount is 0,
and the preorder starts CONFIRMED. -/
theorem preorder_pricing_deposit_witness :
    (mkPreorder 2 preStore.nextPreorderId preProduct preReq3).price = 2 ∧
    (mkPreorder 2 preStore.nextPreorderId preProduct preReq3).depositPaid = 6 ∧
    (mkPreorder 2 preStore.nextPreorderId preProduct preReq3).remainingAmount = 0 ∧
    (mkPreorder 2 preStore.nextPreorderId preProduct preReq3).status =
      PreorderStatus.CONFIRMED := by
  have hsucc := createPreorder_success 2 0 preReq3 preStore preProduct
    rfl rfl rfl rfl rfl rfl
  obtain ⟨product, hfind, hprice, hdep, hle, hrem, hclamp, hconf, hpend⟩ :=
    preorder_pricing_deposit 2 0 preReq3 preStore _ _ hsucc
  have hpp : product = preProduct := by
    have h0 : preStore.products.find?
        (fun p => p.id = preReq3.productId && p.isActive && p.allowPreorder) =
        some preProduct := rfl
    rw [h0] at hfind
    exact (Option.some.inj hfind).symm
  subst hpp
  have hp2 : (mkPreorder 2 preStore.nextPreorderId preProduct preReq3).price = 2 := by
    rw [hprice]; rfl
  have hq3 : ((preReq3.quantity : Nat) : Rat) = 3 := by norm_num [preReq3]
  have hdep6 :
      (mkPreorder 2 preStore.nextPreorderId preProduct preReq3).depositPaid = 6 := by
    rw [hdep, hp2, hq3]
    show min preReq3.depositAmount (2 * 3 : Rat) = 6
    rw [show preReq3.depositAmount = 10 from rfl]
    rw [min_eq_right (by norm_num)]
    norm_num
  refine ⟨hp2, hdep6, ?_, ?_⟩
  · apply hclamp
    rw [hp2, hq3, show preReq3.depositAmount = 10 from rfl]
    norm_num
  · apply hconf.mpr
    rw [hdep6]
    norm_num

/-- C5: Preorder limit enforcement.  On a product with a positive preorder
limit L (the routes that write the column only ever store null or a value of
at least 1), with S the summed quantity of the existing PENDING or CONFIRMED
preorders of the product, and with the earlier checks (product lookup,
variant, window) passing, a request for quantity q is rejected with the
limit error reporting remaining capacity L minus S exactly when S + q exceeds
L, and is never rejected on this ground when S + q is within L. -/
theorem preorder_limit_enforcement (uid now : Nat) (r : PreorderReq)
    (st : Store) (product : ProductRec) (L : Nat)
    (hfind : st.products.find?
        (fun p => p.id = r.productId && p.isActive && p.allowPreorder) =
      some product)
    (hvar : variantOk product r = true)
    (hwin : windowClosed now product = false)
    (hL : product.preorderLimit = some L) (hLpos : 0 < L) :
    (activePreorderQty st.preorders r.productId + r.quantity > L →
      createPreorder uid now r st =
        (.error (.limitExceeded
          ((L : Int) - (activePreorderQty st.preorders r.productId : Int))), st)) ∧
    (activePreorderQty st.preorders r.productId + r.quantity ≤ L →
      ∀ a, (createPreorder uid now r st).1 ≠ .error (.limitExceeded a)) := by
  have hL0 : L ≠ 0 := Nat.pos_iff_ne_zero.mp hLpos
  constructor
  · intro hgt
    have hlim : preorderLimitCheck product.preorderLimit
        (activePreorderQty st.preorders r.productId) r.quantity =
        some ((L : Int) - (activePreorderQty st.preorders r.productId : Int)) := by
      rw [hL]
      unfold preorderLimitCheck
      dsimp only
      rw [if_neg hL0, if_pos hgt]
    unfold createPreorder
    rw [hfind]
    dsimp only
    rw [if_neg (by simp [hvar]), if_neg (by simp [hwin]), hlim]
  · intro hle a
    have hlim : preorderLimitCheck product.preorderLimit
        (activePreorderQty st.preorders r.productId) r.quantity = none := by
      rw [hL]
      unfold preorderLimitCheck
      dsimp only
      rw [if_neg hL0, if_neg (by omega)]
    unfold createPreorder
    rw [hfind]
    dsimp only
    rw [if_neg (by simp [hvar]), if_neg (by simp [hwin]), hlim]
    split
    · rename_i available heq
      exact absurd heq (by simp)
    · split
      · simp
      · split
        · simp
        · simp

/-- C5 witness: limit 100 with existing active preorders summing to 90; a
request for 11 units is rejected with remaining capacity 10. -/
theorem preorder_limit_enforcement_witness :
    createPreorder 2 0 preReq11 preStore =
      (.error (.limitExceeded 10), preStore) := by
  have h := (preorder_limit_enforcement 2 0 preReq11 preStore preProduct 100
    rfl rfl rfl rfl (by decide)).1 (by decide)
  rw [h]
  have : ((100 : Nat) : Int) -
      (activePreorderQty preStore.preorders preReq11.productId : Int) = 10 := by
    decide
  rw [this]

/-- C6: Preorder status state machine with audit history.  With the request
string parsing to status s and the preorder found, the update is accepted
exactly when s is a valid transition from the current status; the transition
table is precisely PENDING to CONFIRMED, CANCELLED or EXPIRED; CONFIRMED to
READY or CANCELLED; READY to SHIPPED or CANCELLED; SHIPPED to DELIVERED; with
DELIVERED, CANCELLED and EXPIRED terminal (and so PENDING to READY rejected);
every accepted transition prepends a history record with the old status, the
new status, the acting admin and the timestamp; a rejected transition leaves
the store unchanged. -/
theorem preorder_status_machine (pid : Nat) (req : String) (actor now : Nat)
    (st : Store) (cur : PreorderRec) (s : PreorderStatus)
    (hp : parsePreorderStatus req = some s)
    (hf : st.preorders.find? (fun p => p.id = pid) = some cur) :
    ((updatePreorderStatus pid req actor now st).1 = .ok s ↔
      s ∈ validPreorderTransitions cur.status) ∧
    (s ∉ validPreorderTransitions cur.status →
      updatePreorderStatus pid req actor now st = (.error .invalidTransition, st)) ∧
    (s ∈ validPreorderTransitions cur.status →
      (updatePreorderStatus pid req actor now st).2.preorderHistory =
        { preorderId := pid, fromStatus := cur.status, toStatus := s,
          changedBy := actor, timestamp := now } :: st.preorderHistory) ∧
    (∀ f t, t ∈ validPreorderTransitions f ↔
      ((f = .PENDING ∧ (t = .CONFIRMED ∨ t = .CANCELLED ∨ t = .EXPIRED)) ∨
       (f = .CONFIRMED ∧ (t = .READY ∨ t = .CANCELLED)) ∨
       (f = .READY ∧ (t = .SHIPPED ∨ t = .CANCELLED)) ∨
       (f = .SHIPPED ∧ t = .DELIVERED))) := by
  have hupd : updatePreorderStatus pid req actor now st =
      (if s ∈ validPreorderTransitions cur.status then
        (.ok s,
          { st with
            preorders := st.preorders.map
              (fun p => if p.id = pid then { p with status := s } else p)
            preorderHistory :=
              { preorderId := pid, fromStatus := cur.status, toStatus := s,
                changedBy := actor, timestamp := now } :: st.preorderHistory })
      else (.error .invalidTransition, st)) := by
    unfold updatePreorderStatus
    rw [hp]
    dsimp only
    rw [hf]
  refine ⟨?_, ?_, ?_, by intro f t; cases f <;> cases t <;> decide⟩
  · rw [hupd]
    by_cases hmem : s ∈ validPreorderTransitions cur.status
    · simp [hmem]
    · simp [hmem]
  · intro hmem
    rw [hupd, if_neg hmem]
  · intro hmem
    rw [hupd, if_pos hmem]

/-- C6 witness: a PENDING preorder may not jump directly to READY; the
request is rejected and the store is untouched. -/
theorem preorder_status_machine_witness :
    updatePreorderStatus 3 "READY" 1 0 pendingPreStore =
      (.error .invalidTransition, pendingPreStore) := by
  have h := preorder_status_machine 3 "READY" 1 0 pendingPreStore
    { id := 3, userId := 4, productId := 5, productVariantId := none,
      quantity := 1, price := 2, depositPaid := 0, remainingAmount := 2,
      status := .PENDING, shippingAddressId := none, expectedDate := none }
    PreorderStatus.READY rfl rfl
  exact h.2.1 (by decide)

/-- C7: Order cancellation guard and atomic effect.  A missing or foreign
order id fails with not-found and leaves the store unchanged; a current
status outside PENDING and CONFIRMED, in particular an already CANCELLED
order, is rejected and leaves the store unchanged; otherwise the call
succeeds, every non-preorder order item referencing a variant (variants
pairwise distinct among those items, as cart merging guarantees) has that
variant's quantity incremented by the item quantity, and the order's status
becomes CANCELLED. -/
theorem order_cancellation (uid oid : Nat) (st : Store) :
    (findOrder st oid uid = none →
      cancelOrder uid oid st = (.error .notFound, st)) ∧
    (∀ o, findOrder st oid uid = some o →
      (¬ (o.status = .PENDING ∨ o.status = .CONFIRMED) →
        cancelOrder uid oid st = (.error .cannotCancel, st)) ∧
      (o.status = .CANCELLED →
        cancelOrder uid oid st = (.error .cannotCancel, st)) ∧
      ((o.status = .PENDING ∨ o.status = .CONFIRMED) →
        (cancelOrder uid oid st).1 = .ok () ∧
        (((o.items.filter (fun b => !b.isPreorder)).filterMap
            (fun b => b.productVariantId)).Nodup →
          ∀ it ∈ o.items, it.isPreorder = false →
            ∀ v, it.productVariantId = some v →
              ((cancelOrder uid oid st).2.inv v).quantity =
                (st.inv v).quantity + (it.quantity : Int)) ∧
        (∀ p ∈ (cancelOrder uid oid st).2.orders, p.id = oid →
          p.status = .CANCELLED))) := by
  constructor
  · intro hn
    unfold cancelOrder
    rw [hn]
  · intro o hf
    have hfound : cancelOrder uid oid st =
        (if o.status = .PENDING ∨ o.status = .CONFIRMED then
          (.ok (),
            { st with
              orders := st.orders.map
                (fun p => if p.id = oid then { p with status := .CANCELLED } else p)
              inv := incrementInventory st.inv o.items })
        else (.error .cannotCancel, st)) := by
      unfold cancelOrder
      rw [hf]
    refine ⟨?_, ?_, ?_⟩
    · intro hns
      rw [hfound, if_neg hns]
    · intro hc
      rw [hfound, if_neg (by rw [hc]; rintro (h | h) <;> cases h)]
    · intro hcs
      rw [hfound, if_pos hcs]
      refine ⟨rfl, ?_, ?_⟩
      · intro hnd it hm hpre v hv
        show (incrementInventory st.inv o.items v).quantity = _
        rw [incrementInventory_apply]
        have hsum : restoreQtySum o.items v = (it.quantity : Int) := by
          rw [restoreQtySum_eq_filter]
          exact orderVariantQtySum_of_nodup _ it v
            (List.mem_filter.mpr ⟨hm, by simp [hpre]⟩) hv hnd
        rw [hsum]
      · intro p hp hid
        obtain ⟨q, hq, hpe⟩ := List.mem_map.mp hp
        by_cases hqid : q.id = oid
        · rw [← hpe, if_pos hqid]
        · rw [← hpe, if_neg hqid] at hid ⊢
          exact absurd hid hqid

/-- C7 witness: cancelling an already cancelled order is rejected with the
cannot-cancel error and the store is unchanged. -/
theorem order_cancellation_witness :
    cancelOrder 2 1 cancelledStore = (.error .cannotCancel, cancelledStore) := by
  have h := (order_cancellation 2 1 cancelledStore).2
    { id := 1, userId := 2, totalAmount := 0, orderType := .REGULAR,
      status := .CANCELLED, items := [] } rfl
  exact h.2.1 rfl

/-- C8: Round-trip of placement and cancellation.  After any successful order
placement, immediately cancelling the created order succeeds (its status is
the database default PENDING) and returns every variant's full inventory row
to its value before the placement: the restore loop adds back per variant
exactly what the decrement loop subtracted for non-preorder lines, and
preorder-only lines touch inventory in neither direction. -/
theorem order_cancel_roundtrip (uid : Nat) (st : Store) (ord : StoredOrder)
    (st2 : Store) (h : createOrder uid st = (.ok ord, st2)) :
    (cancelOrder uid ord.id st2).1 = .ok () ∧
    ∀ v, (cancelOrder uid ord.id st2).2.inv v = st.inv v := by
  obtain ⟨h1, h2⟩ := createOrder_ok_inv uid st ord st2 h
  subst h1
  subst h2
  have hpred : (fun o => decide (o.id = (newOrderOf uid st).id) &&
      decide (o.userId = uid)) (newOrderOf uid st) = true := by
    simp [newOrderOf]
  have hfind : findOrder (orderSuccessStore uid st) (newOrderOf uid st).id uid =
      some (newOrderOf uid st) := by
    unfold findOrder orderSuccessStore
    exact List.find?_cons_of_pos _ hpred
  have hcancel : cancelOrder uid (newOrderOf uid st).id (orderSuccessStore uid st) =
      (.ok (),
        { orderSuccessStore uid st with
          orders := (orderSuccessStore uid st).orders.map
            (fun p => if p.id = (newOrderOf uid st).id then
              { p with status := .CANCELLED } else p)
          inv := incrementInventory (orderSuccessStore uid st).inv
            (newOrderOf uid st).items }) := by
    unfold cancelOrder
    rw [hfind]
    dsimp only
    rw [if_pos (show (newOrderOf uid st).status = OrderStatus.PENDING ∨
      (newOrderOf uid st).status = OrderStatus.CONFIRMED from Or.inl rfl)]
  rw [hcancel]
  refine ⟨rfl, ?_⟩
  intro v
  show incrementInventory (orderSuccessStore uid st).inv
      (newOrderOf uid st).items v = st.inv v
  rw [incrementInventory_apply]
  have hinv : (orderSuccessStore uid st).inv v =
      decrementInventory st.inv (regularItemsOf st) v := rfl
  rw [hinv, decrementInventory_apply]
  have hitems : (newOrderOf uid st).items = st.cartItems.map snapshotItem := rfl
  rw [hitems, restoreQtySum_map_snapshot]
  have hreg : st.cartItems.filter (fun b => !b.isPreorder) = regularItemsOf st := rfl
  rw [hreg]
  cases hsv : st.inv v with
  | mk q rq t => simp

/-- C8 witness: placing the demo order and cancelling it restores variant 7
to its original inventory row. -/
theorem order_cancel_roundtrip_witness :
    (cancelOrder 1 (newOrderOf 1 demoStore).id (orderSuccessStore 1 demoStore)).1 =
      .ok () ∧
    (cancelOrder 1 (newOrderOf 1 demoStore).id
      (orderSuccessStore 1 demoStore)).2.inv 7 = demoStore.inv 7 := by
  have h := order_cancel_roundtrip 1 demoStore (newOrderOf 1 demoStore)
    (orderSuccessStore 1 demoStore)
    (createOrder_success 1 demoStore (by simp [demoStore]) rfl)
  exact ⟨h.1, h.2 7⟩

/-- C9: Preorder placement frame.  Every successful preorder placement leaves
every inventory row (quantity, reserved quantity, threshold) untouched, as
well as the cart, the orders, the history and the addresses; the only state
changes are the new preorder row, carrying the requested quantity, and the
increment of the matching product's totalPreorders counter by that
quantity. -/
theorem preorder_placement_frame (uid now : Nat) (r : PreorderReq) (st : Store)
    (pre : PreorderRec) (st2 : Store)
    (h : createPreorder uid now r st = (.ok pre, st2)) :
    (∀ v, st2.inv v = st.inv v) ∧
    st2.cartItems = st.cartItems ∧
    st2.orders = st.orders ∧
    st2.preorderHistory = st.preorderHistory ∧
    st2.addresses = st.addresses ∧
    st2.preorders = pre :: st.preorders ∧
    pre.quantity = r.quantity ∧
    st2.products = st.products.map (fun p =>
      if p.id = r.productId then
        { p with totalPreorders := p.totalPreorders + (r.quantity : Int) }
      else p) := by
  obtain ⟨product, hfind, hpre, hst2⟩ := createPreorder_ok_inv uid now r st pre st2 h
  subst hpre
  subst hst2
  exact ⟨fun v => rfl, rfl, rfl, rfl, rfl, rfl, rfl, rfl⟩

/-- C9 witness: the accepted demo preorder leaves variant 7's inventory row
untouched and adds exactly one preorder row. -/
theorem preorder_placement_frame_witness :
    (createPreorder 2 0 preReq3 preStore).2.inv 7 = preStore.inv 7 ∧
    (createPreorder 2 0 preReq3 preStore).2.preorders.length = 2 := by
  have hsucc := createPreorder_success 2 0 preReq3 preStore preProduct
    rfl rfl rfl rfl rfl rfl
  have h := preorder_placement_frame 2 0 preReq3 preStore
    (mkPreorder 2 preStore.nextPreorderId preProduct preReq3)
    (preorderSuccessStore 2 preProduct preReq3 preStore) hsucc
  rw [hsucc]
  refine ⟨h.1 7, ?_⟩
  rw [show (Except.ok (mkPreorder 2 preStore.nextPreorderId preProduct preReq3),
      preorderSuccessStore 2 preProduct preReq3 preStore).2.preorders =
      mkPreorder 2 preStore.nextPreorderId preProduct preReq3 ::
        preStore.preorders from h.2.2.2.2.2.1]
  rfl

/-- C10: Admin status-update frame.  For every order id, request string and
store, the admin order status update leaves the inventory map, the cart, the
preorders, the status history, the products and the addresses untouched, and
changes at most the status field of order rows: mapping away the status field
yields the same list as before.  In particular requesting CANCELLED through
this endpoint restores no stock and appends no history record. -/
theorem admin_order_status_frame (oid : Nat) (req : String) (st : Store) :
    (adminUpdateOrderStatus oid req st).2.inv = st.inv ∧
    (adminUpdateOrderStatus oid req st).2.cartItems = st.cartItems ∧
    (adminUpdateOrderStatus oid req st).2.preorders = st.preorders ∧
    (adminUpdateOrderStatus oid req st).2.preorderHistory = st.preorderHistory ∧
    (adminUpdateOrderStatus oid req st).2.products = st.products ∧
    (adminUpdateOrderStatus oid req st).2.addresses = st.addresses ∧
    (adminUpdateOrderStatus oid req st).2.orders.map orderSansStatus =
      st.orders.map orderSansStatus := by
  unfold adminUpdateOrderStatus
  cases hp : parseOrderStatus req with
  | none => exact ⟨rfl, rfl, rfl, rfl, rfl, rfl, rfl⟩
  | some s =>
      dsimp only
      split
      · refine ⟨rfl, rfl, rfl, rfl, rfl, rfl, ?_⟩
        show (st.orders.map
            (fun o => if o.id = oid then { o with status := s } else o)).map
            orderSansStatus = st.orders.map orderSansStatus
        induction st.orders with
        | nil => rfl
        | cons a l ih =>
            simp only [List.map_cons, ih]
            by_cases ha : a.id = oid
            · simp [ha, orderSansStatus]
            · simp [ha]
      · exact ⟨rfl, rfl, rfl, rfl, rfl, rfl, rfl⟩

end Bambosey
